import Mathlib

/-!
# Verification of the libhoare contract-injection rewriter

A shallow embedding of `src/libhoare/lib.rs`: a rustc syntax-extension
plugin that injects Hoare-style contract checks (preconditions,
postconditions, invariants) into function-like declarations.

The embedding keeps the source's structure and names:
`fold_expr` (the `ReturnFolder` together with the default `Folder`
machinery), `terminate_loop`, `is_void`, `make_body`, `make_predicate`,
`assert`, `contract_body`, `map_annotatble` (the source's spelling),
`if_debug`, and the `debug_*` entry points.  The process-wide
`RUN_COUNT` of the source is threaded as an explicit `Nat` parameter:
each entry point increments it first, exactly as `inc_run_count` does.

Rust expressions and statements are merged into one inductive type
`Expr`; statement lists (the `stmts` field of `ast::Block`) are
represented by `snil`/`scons` chains.  Rust loop labels are kept
without their leading tick sigil, so the source's label
`__hoare_{RUN_COUNT}` (tick elided) is the string produced by
`loop_label`.
-/

namespace LibHoare

/-- Unified syntax tree for the fragment of the Rust AST that libhoare
manipulates.  Constructors prefixed `s` are statement forms
(`ast::StmtKind`); the rest are expression forms (`ast::ExprKind`).
`sAssert` models the synthesized `assert!(pred, label)` macro call,
carrying the predicate source text and the failure label; macro token
trees are opaque to the folder (`noop_fold_mac`), which matches the
source. -/
inductive Expr where
  | lit (n : Int)
  | boolE (b : Bool)
  | unitE
  | varE (x : String)
  | noneE
  | someE (e : Expr)
  | unwrapE (e : Expr)
  | retE (e : Expr)
  | retU
  | breakE (l : Option String)
  | ifE (c t f : Expr)
  | andE (l r : Expr)
  | orE (l r : Expr)
  | loopE (body : Expr) (l : Option String)
  | assignE (x : String) (e : Expr)
  | closureE (body : Expr)
  | blockE (stmts : Expr)
  | snil
  | scons (s tl : Expr)
  | sLocal (x : String) (init : Expr)
  | sLocalN (x : String)
  | sItem (f : String) (body : Expr)
  | sExpr (e : Expr)
  | sSemi (e : Expr)
  | sAssert (pred : String) (label : String)
  deriving DecidableEq, Repr

/-- Fuel-indexed core of Rust's `str::replace`: scan left to right,
replacing each non-overlapping occurrence of `pat` by `rep`.  The fuel
is instantiated with the length of the input, which suffices because
every step consumes at least one character (all patterns used by the
source are nonempty). -/
def replChars (fuel : Nat) (s pat rep : List Char) : List Char :=
  match fuel, s with
  | 0, rest => rest
  | _ + 1, [] => []
  | fuel + 1, c :: rest =>
    if pat ≠ [] ∧ pat.isPrefixOf (c :: rest) then
      rep ++ replChars fuel (List.drop pat.length (c :: rest)) pat rep
    else
      c :: replChars fuel rest pat rep

/-- Rust's `str::replace` on strings. -/
def rustReplace (s pat rep : String) : String :=
  ⟨replChars s.data.length s.data pat.data rep.data⟩

/-- `result_name`: the ResultSlot identifier `__result_{RUN_COUNT}`. -/
def result_name (n : Nat) : String := "__result_" ++ toString n

/-- `loop_label` / `spanned_loop_label`: the EscapeRegion label
`__hoare_{RUN_COUNT}` (the source writes it with a leading tick, which
this embedding elides). -/
def loop_label (n : Nat) : String := "__hoare_" ++ toString n

/-- The `Contract` enum of the source. -/
inductive Contract where
  | Precond
  | Postcond
  | Invariant
  deriving DecidableEq, Repr

def Contract.short_str : Contract → String
  | .Precond => "precond"
  | .Postcond => "postcond"
  | .Invariant => "invariant"

def Contract.long_str : Contract → String
  | .Precond => "Precondition"
  | .Postcond => "Postcondition"
  | .Invariant => "Invariant"

/-- `pre_str`; the `Postcond` arm is `panic!()` in the source and is
unreachable because every call is guarded by `has_precond`. -/
def Contract.pre_str : Contract → String
  | .Precond => "precondition of"
  | .Postcond => "BUG: unreachable panic in pre_str"
  | .Invariant => "invariant entering"

/-- `post_str`; the `Precond` arm is `panic!()` in the source and is
unreachable because every call is guarded by `has_postcond`. -/
def Contract.post_str : Contract → String
  | .Precond => "BUG: unreachable panic in post_str"
  | .Postcond => "postcondition of"
  | .Invariant => "invariant leaving"

def Contract.has_precond : Contract → Bool
  | .Precond => true
  | .Postcond => false
  | .Invariant => true

def Contract.has_postcond : Contract → Bool
  | .Precond => false
  | .Postcond => true
  | .Invariant => true

/-- `checks_return`: true only for `Postcond` (the `_` arm of the
source's match covers both `Precond` and `Invariant`). -/
def Contract.checks_return : Contract → Bool
  | .Postcond => true
  | _ => false

/-- `ast::LitKind`, restricted to what `make_predicate` inspects. -/
inductive Lit where
  | str (s : String)
  | int (n : Int)
  | boolL (b : Bool)
  deriving DecidableEq, Repr

/-- `ast::MetaItemKind`: the raw metadata entry attached to the
declaration. -/
inductive MetaItem where
  | nameValue (name : String) (lit : Lit)
  | word (name : String)
  | list (name : String)
  deriving DecidableEq, Repr

/-- `ast::TyKind`, restricted to what `is_void` inspects. -/
inductive Ty where
  | tup (tys : List Ty)
  | named (s : String)

/-- `ast::FunctionRetTy`. -/
inductive RetTy where
  | default
  | ty (t : Ty)

/-- `ast::FnDecl`: parameters are opaque here; only the return type is
inspected by the rewriter. -/
structure FnDecl where
  inputs : List String
  output : RetTy

/-- `is_void`: default (omitted) return type, or the empty tuple type. -/
def is_void : RetTy → Bool
  | .default => true
  | .ty (.tup tys) => tys.length == 0
  | .ty _ => false

/-- `ast::MethodSig` (qualifiers plus the `FnDecl`). -/
structure MethodSig where
  unsafety : Bool
  constness : Bool
  abi : String
  generics : String
  decl : FnDecl

/-- `ast::ItemKind`, split into the `Fn` shape and everything else.
The function body is the statement chain of its block. -/
inductive ItemKind where
  | fn (decl : FnDecl) (unsafety : Bool) (constness : Bool) (abi : String)
       (generics : String) (body : Expr)
  | otherItem (desc : String)

/-- An `ast::Item` with the fields `map_annotatble` preserves. -/
structure ItemData where
  ident : String
  attrs : List MetaItem
  vis : String
  node : ItemKind

/-- `ast::ImplItemKind`. -/
inductive ImplItemKind where
  | method (sig : MethodSig) (body : Expr)
  | otherImpl (desc : String)

/-- An `ast::ImplItem`. -/
structure ImplItemData where
  ident : String
  attrs : List MetaItem
  vis : String
  node : ImplItemKind

/-- `ast::TraitItemKind`: a trait method's default body is optional. -/
inductive TraitItemKind where
  | method (sig : MethodSig) (body : Option Expr)
  | otherTrait (desc : String)

/-- An `ast::TraitItem`. -/
structure TraitItemData where
  ident : String
  attrs : List MetaItem
  node : TraitItemKind

/-- `syntax::ext::base::Annotatable`. -/
inductive Annotatable where
  | item (i : ItemData)
  | implItem (i : ImplItemData)
  | traitItem (i : TraitItemData)

/-- `ReturnFolder::fold_expr` together with the default `Folder`
machinery it inherits (`noop_fold_expr`, `noop_fold_stmt`,
`noop_fold_item`): a `return e` becomes the block
`{ __result_n = Some(e); break __hoare_n; }` and a bare `return`
becomes the same block with `Some(())`.  Every other node is rebuilt
with folded children.  Two properties inherited from the source:
(a) the value of a rewritten `return` is *not* itself folded (the
source comments that one would "have to be pretty pathological to
embed a return inside a return"); (b) the default machinery descends
into closures and nested items, because `ReturnFolder` overrides only
`fold_expr` and `fold_mac`, so the rewrite crosses function
boundaries.  `sAssert` carries opaque macro tokens and is left
untouched (`noop_fold_mac`). -/
def fold_expr (n : Nat) : Expr → Expr
  | .retE e =>
      .blockE (.scons (.sSemi (.assignE (result_name n) (.someE e)))
        (.scons (.sExpr (.breakE (some (loop_label n)))) .snil))
  | .retU =>
      .blockE (.scons (.sSemi (.assignE (result_name n) (.someE .unitE)))
        (.scons (.sExpr (.breakE (some (loop_label n)))) .snil))
  | .lit m => .lit m
  | .boolE b => .boolE b
  | .unitE => .unitE
  | .varE x => .varE x
  | .noneE => .noneE
  | .someE e => .someE (fold_expr n e)
  | .unwrapE e => .unwrapE (fold_expr n e)
  | .breakE l => .breakE l
  | .ifE c t f => .ifE (fold_expr n c) (fold_expr n t) (fold_expr n f)
  | .andE a b => .andE (fold_expr n a) (fold_expr n b)
  | .orE a b => .orE (fold_expr n a) (fold_expr n b)
  | .loopE b l => .loopE (fold_expr n b) l
  | .assignE x e => .assignE x (fold_expr n e)
  | .closureE b => .closureE (fold_expr n b)
  | .blockE ss => .blockE (fold_expr n ss)
  | .snil => .snil
  | .scons s tl => .scons (fold_expr n s) (fold_expr n tl)
  | .sLocal x e => .sLocal x (fold_expr n e)
  | .sLocalN x => .sLocalN x
  | .sItem f b => .sItem f (fold_expr n b)
  | .sExpr e => .sExpr (fold_expr n e)
  | .sSemi e => .sSemi (fold_expr n e)
  | .sAssert p l => .sAssert p l

/-- `fold_stmts`: maps the folder over a statement chain (on our
unified syntax this is just `fold_expr`). -/
def fold_stmts (n : Nat) (stmts : Expr) : Expr := fold_expr n stmts

/-- `Vec::pop` on a statement chain: the chain without its last
statement, paired with the last statement if any. -/
def popLast : Expr → Expr × Option Expr
  | .snil => (.snil, none)
  | .scons s .snil => (.snil, some s)
  | .scons s tl =>
      let r := popLast tl
      (.scons s r.1, r.2)
  | e => (.snil, some e)

/-- Appending statement chains (`Vec::extend` / `Vec::push`). -/
def sappend : Expr → Expr → Expr
  | .snil, t => t
  | .scons s tl, t => .scons s (sappend tl t)
  | e, t => .scons e t

/-- A statement chain holding the statements of an `Option`. -/
def optChain : Option Expr → Expr
  | some s => .scons s .snil
  | none => .snil

/-- `terminate_loop`: turn the popped final statement into a ResultSlot
assignment.  An `Expr` or `Semi` statement becomes
`__result_n = Some(e)`; an absent statement with a void return type
becomes `__result_n = Some(())`; everything else (a trailing `let` or
item statement, or an absent statement with a non-void return type)
produces no assignment. -/
def terminate_loop (n : Nat) (expr : Option Expr) (ret : RetTy) : Option Expr :=
  match expr with
  | some e =>
    match e with
    | .sExpr e2 => some (.sExpr (.assignE (result_name n) (.someE e2)))
    | .sSemi e2 => some (.sExpr (.assignE (result_name n) (.someE e2)))
    | _ => none
  | none => if is_void ret then some (.sExpr (.assignE (result_name n) (.someE .unitE))) else none

/-- `make_body`: fold returns into breaks, pop the final statement,
turn it into a ResultSlot assignment via `terminate_loop`, push an
unconditional break of the EscapeRegion, and wrap everything in the
labelled single-iteration loop. -/
def make_body (n : Nat) (stmts : Expr) (ret : RetTy) : Expr :=
  let folded := fold_stmts n stmts
  let popped := popLast folded
  let withTerm := sappend popped.1 (optChain (terminate_loop n popped.2 ret))
  let chain := sappend withTerm (.scons (.sExpr (.breakE (some (loop_label n)))) .snil)
  .sExpr (.loopE (.blockE chain) (some (loop_label n)))

/-- The failure label built by `assert`:
`format!("{} {} ({})", cond_type, fn_name, pred_str.replace("\"", "\\\""))`. -/
def assert_label (cond_type fn_name pred_str : String) : String :=
  cond_type ++ " " ++ fn_name ++ " (" ++ rustReplace pred_str "\"" "\\\"" ++ ")"

/-- `assert`: the synthesized `assert!($pred, $label);` statement.  The
parsed predicate expression `pred` of the source is represented by its
text, which is the same string the source parses. -/
def assert (cond_type fn_name pred_str : String) : Expr :=
  .sAssert pred_str (assert_label cond_type fn_name pred_str)

/-- `make_predicate`: validate the metadata entry and extract the
predicate text.  Returns the diagnostics reported via `span_err`
alongside the result. -/
def make_predicate (attr : MetaItem) (cond_name : String) :
    Except Unit String × List String :=
  match attr with
  | .nameValue name lit =>
    if name = cond_name ∨ name = "debug_" ++ cond_name then
      match lit with
      | .str s => (.ok s, [])
      | _ => (.error (), ["unexpected kind of predicate for condition"])
    else
      (.error (), ["unexpected name in condition: " ++ name])
  | _ => (.error (), ["unexpected format of condition"])

/-- `contract_body`: parse the predicate, substitute `return` by the
ResultSlot name when `checks_return` holds, and assemble the new
function body: optional precondition assert, ResultSlot declaration,
the EscapeRegion produced by `make_body`, the ResultSlot unwrap,
optional postcondition assert, and the final result expression
(`fn_body` plus `result_expr` in the source). -/
def contract_body (n : Nat) (ident : String) (decl : FnDecl) (body : Expr)
    (attr : MetaItem) (contract : Contract) :
    Except Unit Expr × List String :=
  match make_predicate attr contract.short_str with
  | (.error e, ds) => (.error e, ds)
  | (.ok pred, _) =>
    let pred_str := if contract.checks_return
      then rustReplace pred "return" (result_name n) else pred
    let pre := if contract.has_precond
      then Expr.scons (assert contract.pre_str ident pred_str) .snil else .snil
    let post := if contract.has_postcond
      then Expr.scons (assert contract.post_str ident pred_str) .snil else .snil
    let stmts :=
      sappend pre
       (.scons (.sLocal (result_name n) .noneE)
        (.scons (make_body n body decl.output)
         (.scons (.sLocal (result_name n) (.unwrapE (.varE (result_name n))))
          (sappend post
           (.scons (.sExpr (.varE (result_name n))) .snil)))))
    (.ok (.blockE stmts), [])

/-- `map_annotatble` (the source's spelling): dispatch over the three
`Annotatable` shapes, rebuild the declaration with the new body on
success, and return the original declaration (plus a diagnostic) on
any failure. -/
def map_annotatble (n : Nat) (attr : MetaItem) (item : Annotatable)
    (contract : Contract) : Annotatable × List String :=
  match item with
  | .item i =>
    match i.node with
    | .fn decl u c abi gen body =>
      match contract_body n i.ident decl body attr contract with
      | (.ok newBody, ds) =>
          (.item { i with node := .fn decl u c abi gen newBody }, ds)
      | (.error _, ds) => (.item i, ds)
    | .otherItem _ =>
        (.item i, [contract.long_str ++ " on non-function item"])
  | .implItem i =>
    match i.node with
    | .method sig body =>
      match contract_body n i.ident sig.decl body attr contract with
      | (.ok newBody, ds) =>
          (.implItem { i with node := .method sig newBody }, ds)
      | (.error _, ds) => (.implItem i, ds)
    | .otherImpl _ =>
        (.implItem i, [contract.long_str ++ " on non-function impl item"])
  | .traitItem i =>
    match i.node with
    | .method sig (some body) =>
      match contract_body n i.ident sig.decl body attr contract with
      | (.ok newBody, ds) =>
          (.traitItem { i with node := .method sig (some newBody) }, ds)
      | (.error _, ds) => (.traitItem i, ds)
    | .method _ none =>
        (.traitItem i, [contract.long_str ++ " on non-function trait item"])
    | .otherTrait _ =>
        (.traitItem i, [contract.long_str ++ " on non-function trait item"])

/-- `precond` entry point: `inc_run_count` then dispatch.  `n` is the
value of `RUN_COUNT` before the increment. -/
def precond (n : Nat) (attr : MetaItem) (item : Annotatable) :
    Annotatable × List String :=
  map_annotatble (n + 1) attr item .Precond

/-- `postcond` entry point. -/
def postcond (n : Nat) (attr : MetaItem) (item : Annotatable) :
    Annotatable × List String :=
  map_annotatble (n + 1) attr item .Postcond

/-- `invariant` entry point. -/
def invariant (n : Nat) (attr : MetaItem) (item : Annotatable) :
    Annotatable × List String :=
  map_annotatble (n + 1) attr item .Invariant

/-- `if_debug`: run `f` only when the compilation defines the
`debug_assertions` cfg flag, otherwise pass the item through. -/
def if_debug (debugAssertions : Bool) (f : Unit → Annotatable × List String)
    (item : Annotatable) : Annotatable × List String :=
  if debugAssertions then f () else (item, [])

/-- `debug_precond` entry point. -/
def debug_precond (dbg : Bool) (n : Nat) (attr : MetaItem)
    (item : Annotatable) : Annotatable × List String :=
  if_debug dbg (fun _ => precond n attr item) item

/-- `debug_postcond` entry point. -/
def debug_postcond (dbg : Bool) (n : Nat) (attr : MetaItem)
    (item : Annotatable) : Annotatable × List String :=
  if_debug dbg (fun _ => postcond n attr item) item

/-- `debug_invariant` entry point. -/
def debug_invariant (dbg : Bool) (n : Nat) (attr : MetaItem)
    (item : Annotatable) : Annotatable × List String :=
  if_debug dbg (fun _ => invariant n attr item) item

/-! ## Analysis helpers

Syntactic observers over the embedded syntax, used to state the
properties below.  They are not part of the source; each one is a
plain structural scan. -/

/-- Does the expression contain a `return` node anywhere (including
inside closures and nested items)? -/
def containsRet : Expr → Bool
  | .retE _ => true
  | .retU => true
  | .someE e => containsRet e
  | .unwrapE e => containsRet e
  | .ifE c t f => containsRet c || containsRet t || containsRet f
  | .andE a b => containsRet a || containsRet b
  | .orE a b => containsRet a || containsRet b
  | .loopE b _ => containsRet b
  | .assignE _ e => containsRet e
  | .closureE b => containsRet b
  | .blockE ss => containsRet ss
  | .scons s tl => containsRet s || containsRet tl
  | .sLocal _ e => containsRet e
  | .sItem _ b => containsRet b
  | .sExpr e => containsRet e
  | .sSemi e => containsRet e
  | _ => false

/-- No `return` node occurs inside the value expression of another
`return` (the shape the source's folder declines to fold). -/
def goodRets : Expr → Bool
  | .retE e => !containsRet e
  | .retU => true
  | .someE e => goodRets e
  | .unwrapE e => goodRets e
  | .ifE c t f => goodRets c && goodRets t && goodRets f
  | .andE a b => goodRets a && goodRets b
  | .orE a b => goodRets a && goodRets b
  | .loopE b _ => goodRets b
  | .assignE _ e => goodRets e
  | .closureE b => goodRets b
  | .blockE ss => goodRets ss
  | .scons s tl => goodRets s && goodRets tl
  | .sLocal _ e => goodRets e
  | .sItem _ b => goodRets b
  | .sExpr e => goodRets e
  | .sSemi e => goodRets e
  | _ => true

/-- The failure labels of the `assert!` statements at the top level of
a synthesized body (the scan does not descend into the EscapeRegion). -/
def labelsOf : Expr → List String
  | .blockE ss => labelsOf ss
  | .scons (.sAssert _ l) tl => l :: labelsOf tl
  | .scons _ tl => labelsOf tl
  | _ => []

/-- The predicate texts of the `assert!` statements at the top level of
a synthesized body. -/
def predsOf : Expr → List String
  | .blockE ss => predsOf ss
  | .scons (.sAssert p _) tl => p :: predsOf tl
  | .scons _ tl => predsOf tl
  | _ => []

/-- Two annotatables agree on everything except the function body:
identifier, remaining metadata, visibility, and — for function-like
nodes — the full signature (declaration, qualifiers, ABI, generics).
Shapes must match; the body is unconstrained. -/
def SameExceptBody : Annotatable → Annotatable → Prop
  | .item i, .item j =>
      i.ident = j.ident ∧ i.attrs = j.attrs ∧ i.vis = j.vis ∧
      (match i.node, j.node with
       | .fn d u c a g _, .fn d2 u2 c2 a2 g2 _ =>
           d = d2 ∧ u = u2 ∧ c = c2 ∧ a = a2 ∧ g = g2
       | .otherItem s, .otherItem t => s = t
       | _, _ => False)
  | .implItem i, .implItem j =>
      i.ident = j.ident ∧ i.attrs = j.attrs ∧ i.vis = j.vis ∧
      (match i.node, j.node with
       | .method sig _, .method sig2 _ => sig = sig2
       | .otherImpl s, .otherImpl t => s = t
       | _, _ => False)
  | .traitItem i, .traitItem j =>
      i.ident = j.ident ∧ i.attrs = j.attrs ∧
      (match i.node, j.node with
       | .method sig _, .method sig2 _ => sig = sig2
       | .otherTrait s, .otherTrait t => s = t
       | _, _ => False)
  | _, _ => False

/-- Does `make_predicate` reject the metadata entry?  True exactly when
the name matches neither the contract keyword nor its debug-prefixed
form, when the value is not a string literal, or when the metadata is
not a name/value pair at all. -/
def attrBad (attr : MetaItem) (cond_name : String) : Bool :=
  match attr with
  | .nameValue name lit =>
    if name = cond_name ∨ name = "debug_" ++ cond_name then
      match lit with
      | .str _ => false
      | _ => true
    else true
  | _ => true

/-! ## Runtime semantics

A small fuel-indexed interpreter for the embedded syntax, used to
observe what a synthesized body does at runtime.  Assertion predicates
are evaluated by an oracle `hold : String → Bool` standing in for the
host language's evaluation of the parsed predicate expression. -/

/-- Runtime values. -/
inductive Val where
  | vInt (n : Int)
  | vBool (b : Bool)
  | vUnit
  | vNone
  | vSome (v : Val)
  | vClosure (body : Expr)
  deriving DecidableEq, Repr

/-- The result of evaluating a piece of syntax: a value, a `break` in
flight, a `return` in flight, or a panic. -/
inductive Res where
  | okR (v : Val)
  | brkR (l : Option String)
  | retR (v : Val)
  | panicR (msg : String)
  deriving DecidableEq, Repr

/-- Mutable variable environment. -/
def Env := List (String × Val)

/-- Look up a variable (innermost binding first). -/
def lookupVar : Env → String → Option Val
  | [], _ => none
  | (y, v) :: tl, x => if y = x then some v else lookupVar tl x

/-- Assign to an existing binding (innermost first); pushes a fresh
binding if none exists. -/
def setVar : Env → String → Val → Env
  | [], x, v => [(x, v)]
  | (y, w) :: tl, x, v =>
      if y = x then (y, v) :: tl else (y, w) :: setVar tl x v

/-- Fuel-indexed big-step evaluation.  Statement chains evaluate to the
value of their last statement (`sSemi`, `let` and item statements
yield unit), matching Rust block-value semantics; `break`, `return`
and panics propagate outwards; a labelled loop absorbs breaks that
target it. -/
def eval (hold : String → Bool) : Nat → Env → Expr → Option (Env × Res)
  | 0, _, _ => none
  | fuel + 1, env, e =>
    match e with
    | .lit m => some (env, .okR (.vInt m))
    | .boolE b => some (env, .okR (.vBool b))
    | .unitE => some (env, .okR .vUnit)
    | .varE x =>
      match lookupVar env x with
      | some v => some (env, .okR v)
      | none => some (env, .panicR ("unbound variable " ++ x))
    | .noneE => some (env, .okR .vNone)
    | .someE e1 =>
      match eval hold fuel env e1 with
      | some (env2, .okR v) => some (env2, .okR (.vSome v))
      | r => r
    | .unwrapE e1 =>
      match eval hold fuel env e1 with
      | some (env2, .okR (.vSome v)) => some (env2, .okR v)
      | some (env2, .okR .vNone) =>
          some (env2, .panicR "called Option::unwrap on a None value")
      | some (env2, .okR _) => some (env2, .panicR "type error: unwrap")
      | r => r
    | .retE e1 =>
      match eval hold fuel env e1 with
      | some (env2, .okR v) => some (env2, .retR v)
      | r => r
    | .retU => some (env, .retR .vUnit)
    | .breakE l => some (env, .brkR l)
    | .ifE c t f =>
      match eval hold fuel env c with
      | some (env2, .okR (.vBool true)) => eval hold fuel env2 t
      | some (env2, .okR (.vBool false)) => eval hold fuel env2 f
      | some (env2, .okR _) => some (env2, .panicR "type error: if")
      | r => r
    | .andE a b =>
      match eval hold fuel env a with
      | some (env2, .okR (.vBool false)) => some (env2, .okR (.vBool false))
      | some (env2, .okR (.vBool true)) => eval hold fuel env2 b
      | some (env2, .okR _) => some (env2, .panicR "type error: and")
      | r => r
    | .orE a b =>
      match eval hold fuel env a with
      | some (env2, .okR (.vBool true)) => some (env2, .okR (.vBool true))
      | some (env2, .okR (.vBool false)) => eval hold fuel env2 b
      | some (env2, .okR _) => some (env2, .panicR "type error: or")
      | r => r
    | .loopE b l =>
      match eval hold fuel env b with
      | some (env2, .okR _) => eval hold fuel env2 (.loopE b l)
      | some (env2, .brkR none) => some (env2, .okR .vUnit)
      | some (env2, .brkR (some l2)) =>
          if some l2 = l then some (env2, .okR .vUnit)
          else some (env2, .brkR (some l2))
      | r => r
    | .assignE x e1 =>
      match eval hold fuel env e1 with
      | some (env2, .okR v) => some (setVar env2 x v, .okR .vUnit)
      | r => r
    | .closureE b => some (env, .okR (.vClosure b))
    | .blockE ss => eval hold fuel env ss
    | .snil => some (env, .okR .vUnit)
    | .scons s tl =>
      match eval hold fuel env s with
      | some (env2, .okR v) =>
        match tl with
        | .snil => some (env2, .okR v)
        | _ => eval hold fuel env2 tl
      | r => r
    | .sLocal x e1 =>
      match eval hold fuel env e1 with
      | some (env2, .okR v) => some ((x, v) :: env2, .okR .vUnit)
      | r => r
    | .sLocalN _ => some (env, .okR .vUnit)
    | .sItem _ _ => some (env, .okR .vUnit)
    | .sExpr e1 => eval hold fuel env e1
    | .sSemi e1 =>
      match eval hold fuel env e1 with
      | some (env2, .okR _) => some (env2, .okR .vUnit)
      | r => r
    | .sAssert p l =>
      if hold p then some (env, .okR .vUnit) else some (env, .panicR l)

/-- Run a synthesized contract body produced by `contract_body`,
returning only the runtime outcome. -/
def runContract (cb : Except Unit Expr × List String) (fuel : Nat)
    (hold : String → Bool) : Option Res :=
  match cb with
  | (.ok blk, _) => (eval hold fuel [] blk).map (fun p => p.2)
  | (.error _, _) => none

/-- Modelled from the spec: the failure-message format of §6,
`"{Precondition|Postcondition|Invariant entering|Invariant leaving} of
<function-name> (<predicate text with embedded double-quotes
escaped>)"`.  Used only to compare the spec's stated label format with
the one the code builds. -/
def specFailureLabel (kind fn_name pred : String) : String :=
  kind ++ " of " ++ fn_name ++ " (" ++ rustReplace pred "\"" "\\\"" ++ ")"

/-! ## Helper lemmas -/

/-- A metadata entry rejected by `attrBad` makes `make_predicate` fail
with exactly one diagnostic. -/
theorem make_predicate_attrBad (attr : MetaItem) (cn : String)
    (h : attrBad attr cn = true) :
    ∃ m, make_predicate attr cn = (.error (), [m]) := by
  unfold attrBad at h
  unfold make_predicate
  cases attr with
  | nameValue name lit =>
    by_cases hn : name = cn ∨ name = "debug_" ++ cn
    · simp only [if_pos hn] at h ⊢
      cases lit <;> simp_all
    · simp only [if_neg hn]
      exact ⟨_, rfl⟩
  | word name => exact ⟨_, rfl⟩
  | list name => exact ⟨_, rfl⟩

/-- `contract_body` propagates a `make_predicate` failure unchanged. -/
theorem contract_body_error (n : Nat) (ident : String) (decl : FnDecl)
    (body : Expr) (attr : MetaItem) (c : Contract) (m : String)
    (h : make_predicate attr c.short_str = (.error (), [m])) :
    contract_body n ident decl body attr c = (.error (), [m]) := by
  unfold contract_body
  rw [h]

/-! ## The claims -/

/-- C1: the claim states that for every annotated declaration with a
body and every contract kind, the synthesized body assigns the
ResultSlot on every control path before the EscapeRegion loop is
exited, so the unwrap following the loop never observes "no value".
The code violates this: for `#[precond = "true"] fn f() { let x = 5; }`
(void return type, body ending in a `let` statement) `make_body` pops
the `let`, `terminate_loop` synthesizes no assignment, the loop body
is a bare `break`, and the unwrap panics on `None` at runtime — the
trailing `let` is even dropped from the program.  This theorem runs
the synthesized body and observes the panic. -/
theorem claim1_resultslot_unassigned_panics :
    runContract
      (contract_body 1 "f" ⟨[], .default⟩
        (.scons (.sLocal "x" (.lit 5)) .snil)
        (.nameValue "precond" (.str "true")) .Precond)
      64 (fun _ => true)
    = some (.panicR "called Option::unwrap on a None value") := by
  rfl

/-- C2, counterexample: the claim states that every `return` is
rewritten, including inside the value expression of another `return`.
The folder does not fold the value of a rewritten `return`, so the
inner `return` of `return (return 1)` survives the rewrite. -/
theorem claim2_counterexample :
    containsRet (fold_expr 0 (.retE (.retE (.lit 1)))) = true := by
  rfl

/-- C2, amended: the Early-Exit Rewriter replaces every `return`
expression with a ResultSlot assignment followed by a break of the
EscapeRegion label, no matter how deeply nested — inside conditionals,
branches, nested blocks and boolean short-circuit expressions —
except that a `return` occurring inside the value expression of
another `return` is left unchanged.  Formally: a rewritten `return`
becomes exactly the assignment-plus-break block, and whenever no
`return` sits inside another `return`'s value, the folded tree
contains no `return` at all. -/
theorem claim2_all_returns_folded (n : Nat) (e : Expr)
    (h : goodRets e = true) :
    containsRet (fold_expr n e) = false ∧
    fold_expr n (.retE e) =
      .blockE (.scons (.sSemi (.assignE (result_name n) (.someE e)))
        (.scons (.sExpr (.breakE (some (loop_label n)))) .snil)) := by
  refine ⟨?_, rfl⟩
  induction e <;> simp_all [goodRets, containsRet, fold_expr]

/-- C2, witness for the amended theorem at a concrete body: a `return`
nested inside a conditional inside a loop is eliminated. -/
theorem claim2_witness :
    goodRets (.loopE (.blockE (.scons (.sExpr (.ifE (.varE "c")
      (.blockE (.scons (.sExpr (.retE (.lit 1))) .snil))
      (.blockE (.scons (.sExpr (.lit 2)) .snil)))) .snil)) none) = true ∧
    containsRet (fold_expr 0 (.loopE (.blockE (.scons (.sExpr (.ifE (.varE "c")
      (.blockE (.scons (.sExpr (.retE (.lit 1))) .snil))
      (.blockE (.scons (.sExpr (.lit 2)) .snil)))) .snil)) none)) = false :=
  ⟨rfl, (claim2_all_returns_folded 0 (.loopE (.blockE (.scons (.sExpr (.ifE (.varE "c")
      (.blockE (.scons (.sExpr (.retE (.lit 1))) .snil))
      (.blockE (.scons (.sExpr (.lit 2)) .snil)))) .snil)) none) rfl).1⟩

/-- C3: the claim states that returns inside nested function-like
definitions (closures, nested `fn` items) are left unchanged.  The
code violates this: `ReturnFolder` overrides only `fold_expr` and
`fold_mac`, so the inherited `Folder` machinery descends into closure
bodies and nested items and rewrites their returns into a ResultSlot
assignment plus a break of the enclosing EscapeRegion label — a label
that is not even in scope there.  This theorem evaluates the folder at
a closure `|…| return x` and at a nested `fn g() { return; }`. -/
theorem claim3_fold_crosses_fn_boundaries :
    fold_expr 0 (.closureE (.retE (.varE "x")))
      = .closureE (.blockE (.scons
          (.sSemi (.assignE "__result_0" (.someE (.varE "x"))))
          (.scons (.sExpr (.breakE (some "__hoare_0"))) .snil))) ∧
    fold_expr 0 (.sItem "g" (.scons (.sExpr .retU) .snil))
      = .sItem "g" (.scons (.sExpr (.blockE (.scons
          (.sSemi (.assignE "__result_0" (.someE .unitE)))
          (.scons (.sExpr (.breakE (some "__hoare_0"))) .snil)))) .snil) :=
  ⟨rfl, rfl⟩

/-- C4, counterexample: the claim states the failure label is
`"{Precondition|Postcondition|Invariant entering|Invariant leaving} of
<function-name> (<predicate text>)"`.  For the invariant kind the code
emits `"invariant entering f (x > 0)"` — lower-case kind phrase and no
`"of"` — which differs from the spec's format. -/
theorem claim4_counterexample :
    (contract_body 1 "f" ⟨[], .default⟩ .snil
        (.nameValue "invariant" (.str "x > 0")) .Invariant).1.toOption.map labelsOf
      = some ["invariant entering f (x > 0)", "invariant leaving f (x > 0)"] ∧
    "invariant entering f (x > 0)" ≠ specFailureLabel "Invariant entering" "f" "x > 0" := by
  exact ⟨rfl, by decide⟩

/-- C4, amended: the failure label is exactly
`"{precondition of|postcondition of|invariant entering|invariant
leaving} <function-name> (<predicate text>)"` (lower-case phrases, with
`of` only in the pre/post phrases), where the predicate text has
embedded double quotes escaped and, for the Postcondition kind, is the
text *after* the return-alias substitution rather than the original
metadata text. -/
theorem claim4_labels (n : Nat) (fn pred : String) (decl : FnDecl) (body : Expr) :
    ((contract_body n fn decl body (.nameValue "precond" (.str pred)) .Precond).1.toOption.map labelsOf
       = some [assert_label "precondition of" fn pred]) ∧
    ((contract_body n fn decl body (.nameValue "postcond" (.str pred)) .Postcond).1.toOption.map labelsOf
       = some [assert_label "postcondition of" fn (rustReplace pred "return" (result_name n))]) ∧
    ((contract_body n fn decl body (.nameValue "invariant" (.str pred)) .Invariant).1.toOption.map labelsOf
       = some [assert_label "invariant entering" fn pred,
               assert_label "invariant leaving" fn pred]) :=
  ⟨rfl, rfl, rfl⟩

/-- C5, counterexample: the claim states the return-alias substitution
happens for the Postcondition kind *and* for the exit (leaving) check
of the Invariant kind.  `checks_return` is true only for `Postcond`,
so an invariant predicate `"return > 0"` reaches both of its asserts —
including the leaving one — textually unchanged. -/
theorem claim5_counterexample :
    (contract_body 1 "f" ⟨[], .default⟩ .snil
        (.nameValue "invariant" (.str "return > 0")) .Invariant).1.toOption.map predsOf
      = some ["return > 0", "return > 0"] ∧
    "return > 0" ≠ rustReplace "return > 0" "return" (result_name 1) := by
  exact ⟨rfl, by decide⟩

/-- C5, amended: only the Postcondition kind rewrites occurrences of
`return` in the predicate text to the ResultSlot name before parsing;
the Precondition kind and both checks of the Invariant kind (entering
and leaving) use the predicate text unmodified. -/
theorem claim5_return_subst (n : Nat) (fn pred : String) (decl : FnDecl) (body : Expr) :
    ((contract_body n fn decl body (.nameValue "postcond" (.str pred)) .Postcond).1.toOption.map predsOf
       = some [rustReplace pred "return" (result_name n)]) ∧
    ((contract_body n fn decl body (.nameValue "invariant" (.str pred)) .Invariant).1.toOption.map predsOf
       = some [pred, pred]) ∧
    ((contract_body n fn decl body (.nameValue "precond" (.str pred)) .Precond).1.toOption.map predsOf
       = some [pred]) :=
  ⟨rfl, rfl, rfl⟩

/-- C6: whenever extraction or dispatch fails — mismatched metadata
name, non-string value, malformed metadata shape, non-function item,
non-method impl/trait item, or bodyless trait method — the operation
returns the original declaration unmodified, reports a diagnostic
(for unsupported shapes, `"{contract kind} on non-function item"` or
its impl/trait-item variant), and never produces a partial rewrite. -/
theorem claim6_error_noop (n : Nat) (attr : MetaItem) (c : Contract) :
    (∀ i : ItemData, ∀ d, i.node = .otherItem d →
        map_annotatble n attr (.item i) c
          = (.item i, [c.long_str ++ " on non-function item"])) ∧
    (∀ i : ImplItemData, ∀ d, i.node = .otherImpl d →
        map_annotatble n attr (.implItem i) c
          = (.implItem i, [c.long_str ++ " on non-function impl item"])) ∧
    (∀ i : TraitItemData,
      (∀ d, i.node = .otherTrait d →
        map_annotatble n attr (.traitItem i) c
          = (.traitItem i, [c.long_str ++ " on non-function trait item"])) ∧
      (∀ sig, i.node = .method sig none →
        map_annotatble n attr (.traitItem i) c
          = (.traitItem i, [c.long_str ++ " on non-function trait item"]))) ∧
    (∀ item : Annotatable, attrBad attr c.short_str = true →
        (map_annotatble n attr item c).1 = item ∧
        (map_annotatble n attr item c).2 ≠ []) := by
  refine ⟨?_, ?_, ?_, ?_⟩
  · intro i d h
    simp [map_annotatble, h]
  · intro i d h
    simp [map_annotatble, h]
  · intro i
    constructor
    · intro d h
      simp [map_annotatble, h]
    · intro sig h
      simp [map_annotatble, h]
  · intro item h
    obtain ⟨m, hm⟩ := make_predicate_attrBad attr c.short_str h
    rcases item with i | i | i
    · rcases i with ⟨id, ats, vis, node⟩
      cases node with
      | fn decl u cn abi gen body =>
        have hcb := contract_body_error n id decl body attr c m hm
        exact ⟨by simp [map_annotatble, hcb], by simp [map_annotatble, hcb]⟩
      | otherItem d => exact ⟨rfl, by simp [map_annotatble]⟩
    · rcases i with ⟨id, ats, vis, node⟩
      cases node with
      | method sig body =>
        have hcb := contract_body_error n id sig.decl body attr c m hm
        exact ⟨by simp [map_annotatble, hcb], by simp [map_annotatble, hcb]⟩
      | otherImpl d => exact ⟨rfl, by simp [map_annotatble]⟩
    · rcases i with ⟨id, ats, node⟩
      cases node with
      | method sig body =>
        cases body with
        | some b =>
          have hcb := contract_body_error n id sig.decl b attr c m hm
          exact ⟨by simp [map_annotatble, hcb], by simp [map_annotatble, hcb]⟩
        | none => exact ⟨rfl, by simp [map_annotatble]⟩
      | otherTrait d => exact ⟨rfl, by simp [map_annotatble]⟩

/-- C6, witness: a bodyless trait method is rejected with the
trait-item diagnostic, and a malformed metadata entry (a bare word) on
a plain function leaves the declaration unchanged. -/
theorem claim6_witness :
    map_annotatble 0 (.word "w")
      (.traitItem ⟨"m", [], .method ⟨false, false, "Rust", "", ⟨[], .default⟩⟩ none⟩) .Precond
      = (.traitItem ⟨"m", [], .method ⟨false, false, "Rust", "", ⟨[], .default⟩⟩ none⟩,
         ["Precondition on non-function trait item"]) ∧
    (map_annotatble 0 (.word "w")
      (.item ⟨"f", [], "", .fn ⟨[], .default⟩ false false "Rust" "" .snil⟩) .Precond).1
      = .item ⟨"f", [], "", .fn ⟨[], .default⟩ false false "Rust" "" .snil⟩ :=
  ⟨((claim6_error_noop 0 (.word "w") .Precond).2.2.1
      ⟨"m", [], .method ⟨false, false, "Rust", "", ⟨[], .default⟩⟩ none⟩).2
      ⟨false, false, "Rust", "", ⟨[], .default⟩⟩ rfl,
   (((claim6_error_noop 0 (.word "w") .Precond).2.2.2
      (.item ⟨"f", [], "", .fn ⟨[], .default⟩ false false "Rust" "" .snil⟩)) rfl).1⟩

/-- C7: the claim states that a body with no trailing expression and a
unit/void return type gets a ResultSlot assignment to the unit value
at the end of the EscapeRegion.  The code only does so when the body
is entirely empty: popping the final statement of
`fn f() { let x = 5; }` yields a `let`, for which `terminate_loop`
synthesizes nothing, so the EscapeRegion is a bare `break` — no unit
assignment, and the `let` is dropped.  (The synthesized unwrap then
panics, see C1.) -/
theorem claim7_trailing_let_no_unit_assign :
    terminate_loop 1 (some (.sLocal "x" (.lit 5))) .default = none ∧
    make_body 1 (.scons (.sLocal "x" (.lit 5)) .snil) .default
      = .sExpr (.loopE (.blockE (.scons (.sExpr (.breakE (some "__hoare_1"))) .snil))
          (some "__hoare_1")) ∧
    terminate_loop 1 none .default
      = some (.sExpr (.assignE "__result_1" (.someE .unitE))) :=
  ⟨rfl, rfl, rfl⟩

/-- C8: a debug-prefixed contract kind is a no-op transform (original
declaration, no diagnostics) when the debug-assertions build-mode
signal is false, and produces exactly the result of the corresponding
non-debug contract kind when the signal is true. -/
theorem claim8_debug_gating (dbg : Bool) (n : Nat) (attr : MetaItem)
    (item : Annotatable) :
    (dbg = false →
      debug_precond dbg n attr item = (item, []) ∧
      debug_postcond dbg n attr item = (item, []) ∧
      debug_invariant dbg n attr item = (item, [])) ∧
    (dbg = true →
      debug_precond dbg n attr item = precond n attr item ∧
      debug_postcond dbg n attr item = postcond n attr item ∧
      debug_invariant dbg n attr item = invariant n attr item) := by
  cases dbg <;>
    simp [debug_precond, debug_postcond, debug_invariant, if_debug]

/-- C8, witness: both gates at a concrete declaration. -/
theorem claim8_witness :
    debug_precond false 0 (.word "w") (.item ⟨"f", [], "", .otherItem "s"⟩)
      = (.item ⟨"f", [], "", .otherItem "s"⟩, []) ∧
    debug_precond true 0 (.word "w") (.item ⟨"f", [], "", .otherItem "s"⟩)
      = precond 0 (.word "w") (.item ⟨"f", [], "", .otherItem "s"⟩) :=
  ⟨((claim8_debug_gating false 0 (.word "w")
      (.item ⟨"f", [], "", .otherItem "s"⟩)).1 rfl).1,
   ((claim8_debug_gating true 0 (.word "w")
      (.item ⟨"f", [], "", .otherItem "s"⟩)).2 rfl).1⟩

/-- C9: the rebuilt declaration differs from the input only in its
body — identifier, visibility, remaining metadata, declaration
signature, unsafety/constness qualifiers, ABI and generics are all
preserved.  Proved for every input (on failure the declaration is
returned unchanged, so the frame holds there too), which covers in
particular every successful rewrite of a free function, impl method,
or trait method with a default body. -/
theorem claim9_frame (n : Nat) (attr : MetaItem) (c : Contract)
    (item : Annotatable) :
    SameExceptBody item (map_annotatble n attr item c).1 := by
  rcases item with i | i | i
  · rcases i with ⟨id, ats, vis, node⟩
    cases node with
    | fn decl u cn abi gen body =>
      rcases h : contract_body n id decl body attr c with ⟨res, ds⟩
      cases res <;> simp [map_annotatble, h, SameExceptBody]
    | otherItem d => simp [map_annotatble, SameExceptBody]
  · rcases i with ⟨id, ats, vis, node⟩
    cases node with
    | method sig body =>
      rcases h : contract_body n id sig.decl body attr c with ⟨res, ds⟩
      cases res <;> simp [map_annotatble, h, SameExceptBody]
    | otherImpl d => simp [map_annotatble, SameExceptBody]
  · rcases i with ⟨id, ats, node⟩
    cases node with
    | method sig body =>
      cases body with
      | some b =>
        rcases h : contract_body n id sig.decl b attr c with ⟨res, ds⟩
        cases res <;> simp [map_annotatble, h, SameExceptBody]
      | none => simp [map_annotatble, SameExceptBody]
    | otherTrait d => simp [map_annotatble, SameExceptBody]

/-- C10: for the Postcondition kind the return-alias substitution is
Rust's plain `str::replace` of the substring `"return"` by the
generated ResultSlot name — every occurrence, with no scope- or
token-aware matching: an occurrence embedded inside the longer
identifier `my_return_value` is also replaced, corrupting it into
`my___result_0_value`. -/
theorem claim10_blind_textual_replace (n : Nat) (fn pred : String)
    (decl : FnDecl) (body : Expr) :
    ((contract_body n fn decl body (.nameValue "postcond" (.str pred)) .Postcond).1.toOption.map predsOf
       = some [rustReplace pred "return" (result_name n)]) ∧
    rustReplace "my_return_value >= 0" "return" "__result_0"
      = "my___result_0_value >= 0" ∧
    rustReplace "return > 0 && x_return_y < return" "return" "__result_0"
      = "__result_0 > 0 && x___result_0_y < __result_0" :=
  ⟨rfl, by decide, by decide⟩

end LibHoare
